import Mathlib

/-
Verification development for the gocsi repository: a CSI routing server
(`Server` in part_002), a per-provider service wrapper (`service` in
part_001), the endpoint parser (`parseProtoAddr` in gocsi/main.go) and the
mock provider's volume catalog (csp/moc/main.go).  Go values of pointer
type are embedded as `Option`; Go maps as association lists; Go `uint32`
and `uint64` fields as `Nat` (the code only ever compares them for
equality or uses them as data, never with wrapping arithmetic).
-/

namespace Gocsi

/-- csi.Version: the protocol version triple carried by every request
(`Major`, `Minor`, `Patch` are `uint32` fields in the proto). -/
structure Version where
  major : Nat
  minor : Nat
  patch : Nat
deriving DecidableEq, Repr

/-- Go nil-safe getter `(*csi.Version).GetMajor`: returns 0 on a nil receiver. -/
def getMajor : Option Version → Nat
  | none => 0
  | some v => v.major

/-- Go nil-safe getter `(*csi.Version).GetMinor`: returns 0 on a nil receiver. -/
def getMinor : Option Version → Nat
  | none => 0
  | some v => v.minor

/-- Go nil-safe getter `(*csi.Version).GetPatch`: returns 0 on a nil receiver. -/
def getPatch : Option Version → Nat
  | none => 0
  | some v => v.patch

/-- Modelled from the spec: `SprintfVersion` (its defining file is not in the
sources) renders the declared (major, minor, patch) version triple as text. -/
def sprintfVersion (v : Option Version) : String :=
  toString (getMajor v) ++ "." ++ toString (getMinor v) ++ "." ++ toString (getPatch v)

/-- csi.VolumeID: a `Values map[string]string`, embedded as an association list. -/
structure VolumeID where
  values : List (String × String)
deriving DecidableEq, Repr

/-- csi.CapacityRange (only the `RequiredBytes` field is read by the code). -/
structure CapacityRange where
  requiredBytes : Nat
deriving DecidableEq, Repr

/-- csi.CreateVolumeRequest, restricted to the fields the code reads:
the version sub-message, the name, and the capacity range. -/
structure CreateVolumeRequest where
  version : Option Version
  name : String
  capacityRange : Option CapacityRange
deriving DecidableEq, Repr

/-- csi.DeleteVolumeRequest, restricted to the fields the code reads. -/
structure DeleteVolumeRequest where
  version : Option Version
  volumeId : Option VolumeID
deriving DecidableEq, Repr

/-- csi.ListVolumesRequest, restricted to the version sub-message, the only
field the wrapper reads. -/
structure ListVolumesRequest where
  version : Option Version
deriving DecidableEq, Repr

/-- Modelled from the spec: the per-operation `Err...` response constructors
(their defining file is not in the sources) wrap a domain error into the
payload of a successful RPC response.  `opError` stands for the
operation-specific error message (e.g. `ErrCreateVolume`, producing a
CreateVolumeError with an error code such as 3 = INVALID_VOLUME_NAME),
`generalError` for the `Err...General` constructors producing a
GeneralError (code 2 = UNSUPPORTED_REQUEST_VERSION at every call site). -/
inductive RespPayload (α : Type) where
  | result (a : α)
  | opError (code : Nat) (desc : String)
  | generalError (code : Nat) (desc : String)
deriving DecidableEq, Repr

/-- Outcome of one wrapped call, as seen at the wrapper's return statement:
`transport e` is the `(nil, err)` return (a transport-level fault, here the
gRPC dial failing), `reply r` is a `(resp, nil)` return built by the wrapper
itself (a successful RPC response carrying `r`), and `forward` is the
delegation `return c.Op(ctx, req)` handing the call to the provider. -/
inductive WOutcome (α : Type) where
  | transport (msg : String)
  | reply (r : RespPayload α)
  | forward
deriving DecidableEq, Repr

/-- The `service` struct of part_001, restricted to the state a single call
reads.  `versions` is the cached supported-version set (entries are nilable
`*csi.Version` pointers); `initErr` is the error value the call observes
from `initSupportedVersionsOnce` (`none` once the cache has been populated
successfully); `dialOk` says whether `grpc.DialContext` over the service's
private pipe connection succeeds for this call. -/
structure Svc where
  serviceType : String
  serviceName : String
  versions : List (Option Version)
  initErr : Option String
  dialOk : Bool
deriving DecidableEq, Repr

/-- The version-comparison loop body of `service.chkReqVersion`: the request
version `rv` (already known non-nil) equals the cached entry `v` on all
three of major, minor and patch, read through the nil-safe getters. -/
def matchesVersion (rv : Version) (v : Option Version) : Bool :=
  rv.major == getMajor v && rv.minor == getMinor v && rv.patch == getPatch v

/-- service.chkReqVersion (part_001 lines 185 to 214): caches the supported
versions once (an error from that step is returned verbatim), rejects a nil
request version, then scans the cached set for an exact
(major, minor, patch) match; the empty string means the version is valid. -/
def Svc.chkReqVersion (s : Svc) (rv : Option Version) : String :=
  match s.initErr with
  | some e => e
  | none =>
    match rv with
    | none => "request version is nil"
    | some rvv =>
      if s.versions.any (matchesVersion rvv) then ""
      else "unsupported request version: " ++ sprintfVersion (some rvv)

/-- service.CreateVolume (part_001 lines 256 to 274): dial the controller,
check the request version, check that the name is non-empty, then forward. -/
def Svc.CreateVolume (s : Svc) (req : CreateVolumeRequest) : WOutcome Unit :=
  if s.dialOk = false then .transport "dial failed"
  else
    let v := s.chkReqVersion req.version
    if v ≠ "" then .reply (.generalError 2 v)
    else if req.name = "" then .reply (.opError 3 "missing name")
    else .forward

/-- service.DeleteVolume (part_001 lines 276 to 302): reject a nil volume-id
object, then an empty volume-id value map, and only then dial the
controller and check the request version before forwarding. -/
def Svc.DeleteVolume (s : Svc) (req : DeleteVolumeRequest) : WOutcome Unit :=
  match req.volumeId with
  | none => .reply (.opError 3 "missing id obj")
  | some idObj =>
    if idObj.values = [] then .reply (.opError 3 "missing id map")
    else if s.dialOk = false then .transport "dial failed"
    else
      let v := s.chkReqVersion req.version
      if v ≠ "" then .reply (.generalError 2 v)
      else .forward

/-- service.ListVolumes (part_001 lines 376 to 390): dial the controller,
check the request version, then forward. -/
def Svc.ListVolumes (s : Svc) (req : ListVolumesRequest) : WOutcome Unit :=
  if s.dialOk = false then .transport "dial failed"
  else
    let v := s.chkReqVersion req.version
    if v ≠ "" then .reply (.opError 2 v)
    else .forward

/-- Go map lookup `m[k]` on a `map[string]string` embedded as an
association list (keys are unique in every map the code builds). -/
def mapGet (m : List (String × String)) (k : String) : Option String :=
  (m.find? (fun p => p.1 == k)).map (fun p => p.2)

/-- Modelled from the spec: `strings.EqualFold` (Go standard library),
case-insensitive string comparison, embedded as equality of the two
character sequences after folding letter case. -/
def eqFold (a b : String) : Bool :=
  a.data.map Char.toLower == b.data.map Char.toLower

/-- Incoming gRPC call metadata (`metadata.MD`): a `map[string][]string`,
embedded as an association list; `none` models
`metadata.FromIncomingContext` reporting no metadata at all. -/
def MD : Type := List (String × List String)

/-- Go map lookup `md[k]` on a `metadata.MD` value. -/
def mdGet (md : MD) (k : String) : Option (List String) :=
  (List.find? (fun p => p.1 == k) md).map (fun p => p.2)

/-- The routing-tag extraction inside `server.svcFromCtx` (part_002 lines
154 to 167): the first value under the metadata key "csi.service", provided
metadata is present, the key is present and its value list is non-empty. -/
def ctxTag (md : Option MD) : Option String :=
  match md with
  | none => none
  | some m =>
    match mdGet m "csi.service" with
    | none => none
    | some ns =>
      match ns with
      | [] => none
      | v :: _ => some v

/-- server.svcFromCtx (part_002 lines 154 to 174): if the routing tag is
present and case-insensitively equals some configured Service's name, the
first such Service handles the call; otherwise the first configured Service
does.  The Go code indexes `Services[0]` unconditionally in the fallback;
on an empty list (unreachable while serving, since Serve rejects it) the
embedding returns `none` where the Go code would panic. -/
def svcFromCtx (services : List Svc) (md : Option MD) : Option Svc :=
  match ctxTag md with
  | some v =>
    match services.find? (fun svc => eqFold v svc.serviceName) with
    | some svc => some svc
    | none => services.head?
  | none => services.head?

/-- server.CreateVolume (part_002 lines 180 to 186): route the call by
metadata, then delegate to the chosen Service wrapper. -/
def serverCreateVolume (services : List Svc) (md : Option MD)
    (req : CreateVolumeRequest) : Option (WOutcome Unit) :=
  (svcFromCtx services md).map (fun svc => svc.CreateVolume req)

/-- A bound network listener, reduced to what `Server.Serve` reads from it:
`l.Addr().Network()` and `l.Addr().String()`. -/
structure ListenerInfo where
  network : String
  address : String
deriving DecidableEq, Repr

/-- The `Server` struct of part_002, restricted to the fields the verified
paths touch: the listen address, the ordered Service list, and the
registered exit-time cleanup actions `x` (each one an
`os.RemoveAll(addr)` closure, embedded as the path it removes). -/
structure ServerSt where
  addr : String
  services : List Svc
  x : List String
deriving DecidableEq, Repr

/-- Modelled from the spec: the message of `ErrEmptyServices` (its defining
file is not in the sources); Serve with zero Services is a startup-fatal
configuration error. -/
def errEmptyServices : String := "empty services"

/-- Startup steps of `Server.Serve` that the trace records: reaching the
address parse, reaching `net.Listen`, registering the unix-socket cleanup,
starting the Services, and entering `s.g.Serve(l)`. -/
inductive ServeEvent where
  | parseAddr
  | netListen
  | cleanupReg
  | svcStart
  | grpcServe
deriving DecidableEq, Repr

/-- The lowercase image of a character list (the case-insensitive regexp
flag `(?i)` folds letter case before comparing). -/
def lowerL (l : List Char) : List Char :=
  l.map Char.toLower

/-- The scheme tokens accepted by the anchored regexp in gocsi/main.go:
`(?i)^((?:(?:tcp|udp|ip)[46]?)|(?:unix(?:gram|packet)?))://(.+)$`. -/
def protoTokens : List (List Char) :=
  ["tcp".data, "tcp4".data, "tcp6".data,
   "udp".data, "udp4".data, "udp6".data,
   "ip".data, "ip4".data, "ip6".data,
   "unix".data, "unixgram".data, "unixpacket".data]

/-- One alternative of the regexp match: the input starts (case-folded)
with the token `t` followed by the literal "://", and the rest — captured
by `(.+)$` — is non-empty and free of newlines (the regexp metacharacter
for any character does not match a newline, and the anchors force the
match to span the whole input). -/
def matchScheme (s t : List Char) : Option (List Char × List Char) :=
  if lowerL (s.take t.length) = t ∧ (s.drop t.length).take 3 = "://".data then
    let a := s.drop (t.length + 3)
    if a = [] ∨ '\n' ∈ a then none else some (s.take t.length, a)
  else none

/-- parseProtoAddr (gocsi/main.go lines 55 to 64): match the endpoint
against the anchored scheme regexp, returning the scheme and address
captures on success and an `invalid address` error otherwise. -/
def parseProtoAddr (s : List Char) : Except String (List Char × List Char) :=
  match protoTokens.findSome? (matchScheme s) with
  | some pa => .ok pa
  | none => .error ("invalid address: " ++ String.mk s)

/-- Outcome of the startup prefix of gocsi/main.go's `main`: either the
process exits with status 1 (startup-fatal), or it proceeds to dial the
parsed endpoint. -/
inductive MainOutcome where
  | exit1 (msg : String)
  | dialPhase (proto addr : String)
deriving DecidableEq, Repr

/-- The startup prefix of `main` (gocsi/main.go lines 16 to 24): read
CSI_ENDPOINT (empty means unset, defaulted to "tcp://127.0.0.1:8080"),
parse it, and exit with status 1 when parsing fails. -/
def gocsiMain (env : String) : MainOutcome :=
  let protoAddr := if env == "" then "tcp://127.0.0.1:8080" else env
  match parseProtoAddr protoAddr.data with
  | .error _ => .exit1 ("error: invalid endpoint: " ++ protoAddr)
  | .ok pa => .dialPhase (String.mk pa.1) (String.mk pa.2)

/-- The tail of `Server.Serve` once a listener `lis` is in hand (part_002
lines 69 to 106): rewrite `Addr` from the listener, register the
unix-socket cleanup when the network is "unix", start the Services and
enter the gRPC accept loop.  `ParseProtoAddr` lives in a file outside the
sources; it is taken to behave as the identical endpoint regexp of
gocsi/main.go, per the spec's single listen-address form. -/
def serveWithListener (s : ServerSt) (lis : ListenerInfo) :
    List ServeEvent × Except String ServerSt :=
  let s1 : ServerSt := { s with addr := lis.network ++ ":/" ++ lis.address }
  if lis.network == "unix" then
    ([.cleanupReg, .svcStart, .grpcServe],
     .ok { s1 with x := s1.x ++ [lis.address] })
  else
    ([.svcStart, .grpcServe], .ok s1)

/-- Server.Serve (part_002 lines 49 to 107): reject an empty Service list
before anything else; with no pre-supplied listener, parse `Addr` and bind
via `net.Listen` (embedded as the oracle `netListen`, since binding is an
operating-system effect); then run the common tail.  The first component
records, in order, which startup steps were reached. -/
def serverServe (netListen : String → String → Except String ListenerInfo)
    (s : ServerSt) (l : Option ListenerInfo) :
    List ServeEvent × Except String ServerSt :=
  if s.services = [] then ([], .error errEmptyServices)
  else
    match l with
    | some lis => serveWithListener s lis
    | none =>
      match parseProtoAddr s.addr.data with
      | .error e => ([.parseAddr], .error e)
      | .ok pa =>
        match netListen (String.mk pa.1) (String.mk pa.2) with
        | .error e => ([.parseAddr, .netListen], .error e)
        | .ok lis =>
          let (evs, r) := serveWithListener s lis
          (.parseAddr :: .netListen :: evs, r)

/-- Observable steps of `Server.Stop`: stopping one Service by name,
stopping the gRPC server (which closes the listener and aborts in-flight
calls), and executing the cleanup action at a given index of `x`. -/
inductive StopEvent where
  | svcStop (name : String)
  | grpcStop
  | runCleanup (i : Nat)
deriving DecidableEq, Repr

/-- The first loop of `Server.Stop`: `svc.Stop(ctx)` for each Service in
list order. -/
def stopServicesEvents : List Svc → List StopEvent
  | [] => []
  | svc :: rest => StopEvent.svcStop svc.serviceName :: stopServicesEvents rest

/-- The final loop of `Server.Stop`: execute the cleanup actions
`x[i], x[i+1], ...` (`n` of them) in registration order. -/
def cleanupEvents : Nat → Nat → List StopEvent
  | _, 0 => []
  | i, n + 1 => StopEvent.runCleanup i :: cleanupEvents (i + 1) n

/-- Server.Stop (part_002 lines 120 to 129): stop every Service in list
order, then `s.g.Stop()`, then run every registered cleanup action.  The
returned state is unchanged: in particular the Go code never clears `s.x`,
so the cleanup actions stay registered after Stop returns. -/
def serverStop (s : ServerSt) : List StopEvent × ServerSt :=
  (stopServicesEvents s.services ++ [StopEvent.grpcStop]
     ++ cleanupEvents 0 s.x.length,
   s)

/-- The per-service version-cache cell: the `versionsOnce sync.Once` guard
together with the `versions` field it protects, plus a count of how many
times the provider's `GetSupportedVersions` query has actually run. -/
structure OnceSt where
  done : Bool
  calls : Nat
  cached : List (Option Version)
deriving DecidableEq, Repr

/-- The version cache before any call: `sync.Once` not yet fired, no
provider query made, `versions` still nil. -/
def onceInit : OnceSt :=
  { done := false, calls := 0, cached := [] }

/-- service.initSupportedVersionsOnce (part_001 lines 216 to 221), with the
`sync.Once` semantics of the Go standard library embedded explicitly: the
mutex inside `Once.Do` serializes all callers and runs the body exactly
once, so each caller's `Do` is one atomic step.  `fetch k` is the
provider's reply to the k-th `GetSupportedVersions` invocation (an
`Except` to cover `initSupportedVersions` failing).  A caller that finds
the Once already fired returns a nil error and the cached versions, even
when the one-shot body had failed — exactly as in Go, where the captured
`err` is only assigned inside the body. -/
def initSupportedVersionsOnce
    (fetch : Nat → Except String (List (Option Version)))
    (st : OnceSt) : OnceSt × Except String (List (Option Version)) :=
  if st.done then (st, .ok st.cached)
  else
    match fetch (st.calls + 1) with
    | .ok vs => ({ done := true, calls := st.calls + 1, cached := vs }, .ok vs)
    | .error e => ({ done := true, calls := st.calls + 1, cached := st.cached }, .error e)

/-- A maximal interleaving of `n` concurrent first callers of
`initSupportedVersionsOnce`: since each caller's `Do` is a single atomic
step (serialized by the Once's mutex), every schedule is some sequential
order of the `n` steps; the second component collects what each caller
observed, in scheduling order. -/
def runCallers (fetch : Nat → Except String (List (Option Version))) :
    Nat → OnceSt → OnceSt × List (Except String (List (Option Version)))
  | 0, st => (st, [])
  | n + 1, st =>
    let r1 := initSupportedVersionsOnce fetch st
    let r2 := runCallers fetch n r1.1
    (r2.1, r1.2 :: r2.2)

/-- csi.VolumeInfo as the mock provider builds it: a nilable `Id` map and a
capacity in bytes (the always-empty `Metadata` map plays no part in the
verified paths and is omitted). -/
structure VolumeInfo where
  id : Option VolumeID
  capacityBytes : Nat
deriving DecidableEq, Repr

/-- The mock provider's catalog state: the package-level `vols` slice and
`nextVolID` counter (csp/moc/main.go lines 731 to 738). -/
structure MockSt where
  vols : List VolumeInfo
  nextVolID : Nat
deriving DecidableEq, Repr

/-- The constant `gib100` of csp/moc/main.go: 100 binary gigabytes. -/
def gib100 : Nat := 1024 * 1024 * 1024 * 100

/-- newVolume (csp/moc/main.go lines 749 to 764) at an already-incremented
id counter value: an Id map holding the rendered id and the name. -/
def newVolume (id : Nat) (name : String) (capacity : Nat) : VolumeInfo :=
  { id := some { values := [("id", toString id), ("name", name)] },
    capacityBytes := capacity }

/-- The scan of findVol (csp/moc/main.go lines 783 to 801), carrying the
running index: skip volumes with a nil Id or an empty Id map or without
the requested field, and return the first whose field value equals `val`
case-insensitively. -/
def findVolAux (field val : String) : Nat → List VolumeInfo → Option (Nat × VolumeInfo)
  | _, [] => none
  | x, v :: rest =>
    match v.id with
    | none => findVolAux field val (x + 1) rest
    | some id =>
      if id.values = [] then findVolAux field val (x + 1) rest
      else
        match mapGet id.values field with
        | none => findVolAux field val (x + 1) rest
        | some fv =>
          if eqFold fv val then some (x, v)
          else findVolAux field val (x + 1) rest

/-- findVol (csp/moc/main.go lines 783 to 801). -/
def findVol (vols : List VolumeInfo) (field val : String) : Option (Nat × VolumeInfo) :=
  findVolAux field val 0 vols

/-- findVolByName (csp/moc/main.go lines 779 to 781). -/
def findVolByName (vols : List VolumeInfo) (name : String) : Option (Nat × VolumeInfo) :=
  findVol vols "name" name

/-- The capacity block of the mock sp.CreateVolume (csp/moc/main.go lines
166 to 171): `gib100` unless the request carries a capacity range with a
non-zero `RequiredBytes`. -/
def mockCapacity (req : CreateVolumeRequest) : Nat :=
  match req.capacityRange with
  | some cr => if cr.requiredBytes ≠ 0 then cr.requiredBytes else gib100
  | none => gib100

/-- sp.CreateVolume of the mock provider (csp/moc/main.go lines 130 to
185): reject an empty name, return an existing volume with the requested
name unchanged, and otherwise append one volume built from the
pre-incremented id counter and the requested capacity. -/
def mockCreateVolume (st : MockSt) (req : CreateVolumeRequest) :
    MockSt × RespPayload VolumeInfo :=
  if req.name = "" then (st, .opError 3 "missing name")
  else
    match findVolByName st.vols req.name with
    | some iv => (st, .result iv.2)
    | none =>
      let v := newVolume (st.nextVolID + 1) req.name (mockCapacity req)
      ({ vols := st.vols ++ [v], nextVolID := st.nextVolID + 1 }, .result v)

/-- The per-volume test behind findVol's scan, for one field: the volume
has a non-nil Id map holding the field, whose value case-insensitively
equals `val` (a volume with a nil Id or without the field is skipped by
the scan and fails this test). -/
def volFieldMatches (field val : String) (v : VolumeInfo) : Bool :=
  match v.id with
  | none => false
  | some id =>
    match mapGet id.values field with
    | none => false
    | some fv => eqFold fv val

/-- The membership test behind the idempotence claim: the catalog already
holds a volume whose name field (the "name" entry of its Id map)
case-insensitively equals `name`. -/
def volNameMatches (name : String) (v : VolumeInfo) : Bool :=
  volFieldMatches "name" name v

/-- Concrete fixture: an empty mock catalog. -/
def mock0 : MockSt := { vols := [], nextVolID := 0 }

/-- Concrete fixture: a CreateVolume request for a fresh name. -/
def req1 : CreateVolumeRequest :=
  { version := some (Version.mk 0 1 0), name := "vol", capacityRange := none }

/-- Concrete fixture: Service "A" with a populated version cache and a
working dial, used by the closed instantiations of the theorems below. -/
def svcA : Svc :=
  { serviceType := "mock", serviceName := "A",
    versions := [some (Version.mk 0 1 0)], initErr := none, dialOk := true }

/-- Concrete fixture: Service "B", like `svcA` under another name. -/
def svcB : Svc :=
  { serviceType := "mock", serviceName := "B",
    versions := [some (Version.mk 0 1 0)], initErr := none, dialOk := true }

/-- Concrete fixture: a Server bound to a unix socket with one Service and
one registered cleanup action. -/
def server1 : ServerSt :=
  { addr := "unix:/a.sock", services := [svcA], x := ["/a.sock"] }

instance {ε α : Type} [DecidableEq ε] [DecidableEq α] : DecidableEq (Except ε α)
  | .ok a, .ok b =>
    if h : a = b then .isTrue (by rw [h]) else .isFalse (by simp [h])
  | .ok _, .error _ => .isFalse (by simp)
  | .error _, .ok _ => .isFalse (by simp)
  | .error e, .error f =>
    if h : e = f then .isTrue (by rw [h]) else .isFalse (by simp [h])

/-- Spec-side predicate, following the claim's words for the endpoint
form: the input is "scheme://address" with scheme one of the protocol or
local-socket tokens matched case-insensitively and a non-empty address,
amended by the fact forced by the regexp that the address holds no
newline (the any-character metacharacter never matches a newline). -/
def goodProtoAddr (s : List Char) : Prop :=
  ∃ t ∈ protoTokens, ∃ sch a : List Char,
    s = sch ++ "://".data ++ a ∧ lowerL sch = t ∧ a ≠ [] ∧ '\n' ∉ a

/-- Spec-side predicate, following the claim's words exactly as stated:
the input is "scheme://address" with a recognised scheme token matched
case-insensitively and a non-empty address (no newline restriction). -/
def claimedProtoAddr (s : List Char) : Prop :=
  ∃ t ∈ protoTokens, ∃ sch a : List Char,
    s = sch ++ "://".data ++ a ∧ lowerL sch = t ∧ a ≠ []

end Gocsi

namespace Gocsi

/-! Helper lemmas shared by the claim theorems. -/

theorem string_append_ne_empty (a b : String) (h : a ≠ "") : a ++ b ≠ "" := by
  intro hc
  have hd := congrArg String.data hc
  rw [String.data_append] at hd
  exact h (String.ext (List.append_eq_nil.mp hd).1)

/-- C1: a Server with an empty Services list fails Serve immediately with
the empty-services configuration error, for every listen oracle and
pre-supplied listener; the recorded startup trace is empty, so neither the
address parse nor `net.Listen` is reached and no listener is bound. -/
theorem serve_empty_services
    (netListen : String → String → Except String ListenerInfo)
    (s : ServerSt) (l : Option ListenerInfo) (h : s.services = []) :
    serverServe netListen s l = ([], .error errEmptyServices)
    ∧ ServeEvent.parseAddr ∉ (serverServe netListen s l).1
    ∧ ServeEvent.netListen ∉ (serverServe netListen s l).1 := by
  refine ⟨by simp [serverServe, h], ?_, ?_⟩ <;> simp [serverServe, h]

theorem serve_empty_services_witness :
    serverServe (fun _ _ => .error "refused")
        { addr := "tcp://127.0.0.1:8080", services := [], x := [] } none
      = ([], .error errEmptyServices) :=
  (serve_empty_services (fun _ _ => .error "refused")
    { addr := "tcp://127.0.0.1:8080", services := [], x := [] } none rfl).1

/-- C2: with the version cache populated and the transport dialling fine, a
ListVolumes call whose declared (major, minor, patch) version exactly
matches no cached supported version is answered by the wrapper itself with
a successful RPC response carrying the unsupported-version domain error,
and is never forwarded to the provider. -/
theorem listVolumes_unsupported_version (s : Svc) (req : ListVolumesRequest)
    (rv : Version)
    (hinit : s.initErr = none) (hdial : s.dialOk = true)
    (hv : req.version = some rv)
    (hmiss : ∀ v ∈ s.versions, matchesVersion rv v = false) :
    Svc.ListVolumes s req
      = .reply (.opError 2 ("unsupported request version: " ++ sprintfVersion (some rv)))
    ∧ Svc.ListVolumes s req ≠ .forward := by
  have hany : s.versions.any (matchesVersion rv) = false := by
    rw [List.any_eq_false]
    exact fun v hvmem => by simp [hmiss v hvmem]
  have hne : ("unsupported request version: " ++ sprintfVersion (some rv)) ≠ "" :=
    string_append_ne_empty _ _ (by decide)
  refine ⟨?_, ?_⟩ <;>
    simp [Svc.ListVolumes, Svc.chkReqVersion, hinit, hdial, hv, hany, hne]

theorem listVolumes_unsupported_version_witness :
    Svc.ListVolumes
        { serviceType := "mock", serviceName := "a",
          versions := [some (Version.mk 0 1 0)], initErr := none, dialOk := true }
        { version := some (Version.mk 9 9 9) }
      = .reply (.opError 2 ("unsupported request version: "
          ++ sprintfVersion (some (Version.mk 9 9 9)))) :=
  (listVolumes_unsupported_version _ _ (Version.mk 9 9 9)
    rfl rfl rfl (by decide)).1

/-- C5: DeleteVolume answers a nil or empty volume id with the
INVALID_VOLUME_ID domain error (code 3) in a successful RPC response, for
every service state — in particular regardless of the declared version and
even when the dial would fail, since the identifier check comes first —
and never forwards such a call; CreateVolume, by contrast, surfaces the
version error even on an empty name, because its version check precedes
its name check. -/
theorem delete_id_first_create_version_first :
    (∀ (s : Svc) (req : DeleteVolumeRequest),
        (req.volumeId = none ∨ ∃ io, req.volumeId = some io ∧ io.values = []) →
        Svc.DeleteVolume s req
          = .reply (.opError 3
              (if req.volumeId = none then "missing id obj" else "missing id map"))
        ∧ Svc.DeleteVolume s req ≠ .forward)
    ∧ (∀ (s : Svc) (req : CreateVolumeRequest),
        s.dialOk = true → s.chkReqVersion req.version ≠ "" →
        Svc.CreateVolume s req
          = .reply (.generalError 2 (s.chkReqVersion req.version))
        ∧ Svc.CreateVolume s req ≠ .forward) := by
  constructor
  · rintro s req (hid | ⟨io, hid, hio⟩)
    · constructor <;> simp [Svc.DeleteVolume, hid]
    · constructor <;> simp [Svc.DeleteVolume, hid, hio]
  · intro s req hdial hver
    constructor <;> simp [Svc.CreateVolume, hdial, hver]

theorem delete_id_first_create_version_first_witness :
    Svc.DeleteVolume
        { serviceType := "mock", serviceName := "a",
          versions := [], initErr := none, dialOk := false }
        { version := some (Version.mk 9 9 9), volumeId := none }
      = .reply (.opError 3 "missing id obj")
    ∧ Svc.CreateVolume
        { serviceType := "mock", serviceName := "a",
          versions := [some (Version.mk 0 1 0)], initErr := none, dialOk := true }
        { version := some (Version.mk 9 9 9), name := "", capacityRange := none }
      = .reply (.generalError 2
          (Svc.chkReqVersion
            { serviceType := "mock", serviceName := "a",
              versions := [some (Version.mk 0 1 0)], initErr := none, dialOk := true }
            (some (Version.mk 9 9 9)))) :=
  ⟨(delete_id_first_create_version_first.1 _ _ (Or.inl rfl)).1,
   (delete_id_first_create_version_first.2 _ _ rfl (by decide)).1⟩

/-- C6: a CreateVolume call that routes to some Service whose version check
passes and whose dial succeeds, but whose name is empty, is answered with
a successful RPC response carrying the INVALID_VOLUME_NAME domain error
(code 3, description "missing name"), not a transport fault, and is never
forwarded to the provider. -/
theorem create_empty_name_domain_error (services : List Svc) (md : Option MD)
    (req : CreateVolumeRequest) (svc : Svc)
    (hroute : svcFromCtx services md = some svc)
    (hdial : svc.dialOk = true)
    (hver : svc.chkReqVersion req.version = "")
    (hname : req.name = "") :
    serverCreateVolume services md req = some (.reply (.opError 3 "missing name"))
    ∧ serverCreateVolume services md req ≠ some .forward := by
  constructor <;>
    simp [serverCreateVolume, hroute, Svc.CreateVolume, hdial, hver, hname]

theorem create_empty_name_domain_error_witness :
    serverCreateVolume
        [{ serviceType := "mock", serviceName := "A",
           versions := [some (Version.mk 0 1 0)], initErr := none, dialOk := true },
         { serviceType := "mock", serviceName := "B",
           versions := [some (Version.mk 0 1 0)], initErr := none, dialOk := true }]
        (some [("csi.service", ["b"])])
        { version := some (Version.mk 0 1 0), name := "", capacityRange := none }
      = some (.reply (.opError 3 "missing name")) :=
  (create_empty_name_domain_error _ _ _
    { serviceType := "mock", serviceName := "B",
      versions := [some (Version.mk 0 1 0)], initErr := none, dialOk := true }
    (by decide) rfl (by decide) rfl).1

/-- C9: with the version cache populated and the dial succeeding, a
ListVolumes call carrying a nil version sub-message is answered by the
wrapper with a successful RPC response carrying the domain error
"request version is nil", and is never forwarded to the provider. -/
theorem listVolumes_nil_version (s : Svc) (req : ListVolumesRequest)
    (hinit : s.initErr = none) (hdial : s.dialOk = true)
    (hv : req.version = none) :
    Svc.ListVolumes s req = .reply (.opError 2 "request version is nil")
    ∧ Svc.ListVolumes s req ≠ .forward := by
  constructor <;>
    simp [Svc.ListVolumes, Svc.chkReqVersion, hinit, hdial, hv]

theorem runCallers_done (fetch : Nat → Except String (List (Option Version)))
    (n : Nat) (st : OnceSt) (h : st.done = true) :
    runCallers fetch n st = (st, List.replicate n (.ok st.cached)) := by
  induction n with
  | zero => simp [runCallers]
  | succ n ih =>
    simp [runCallers, initSupportedVersionsOnce, h, ih, List.replicate]

theorem stopServicesEvents_shape (l : List Svc) :
    ∀ e ∈ stopServicesEvents l, ∃ name, e = StopEvent.svcStop name := by
  induction l with
  | nil => simp [stopServicesEvents]
  | cons svc rest ih =>
    intro e he
    rcases (by simpa [stopServicesEvents] using he : _ ∨ _) with he1 | he1
    · exact ⟨svc.serviceName, he1⟩
    · exact ih e he1

theorem cleanupEvents_shape :
    ∀ (n i : Nat), ∀ e ∈ cleanupEvents i n, ∃ j, e = StopEvent.runCleanup j := by
  intro n
  induction n with
  | zero => intro i e he; simp [cleanupEvents] at he
  | succ n ih =>
    intro i e he
    rcases (by simpa [cleanupEvents] using he : _ ∨ _) with he1 | he1
    · exact ⟨i, he1⟩
    · exact ih (i + 1) e he1

theorem count_cleanupEvents : ∀ (n i j : Nat),
    (cleanupEvents i n).count (StopEvent.runCleanup j)
      = if i ≤ j ∧ j < i + n then 1 else 0 := by
  intro n
  induction n with
  | zero =>
    intro i j
    simp only [cleanupEvents, List.count_nil]
    rw [if_neg (by omega)]
  | succ n ih =>
    intro i j
    simp only [cleanupEvents, List.count_cons, ih (i + 1) j,
      beq_iff_eq, StopEvent.runCleanup.injEq]
    split_ifs <;> omega

theorem count_stopServicesEvents_grpcStop (l : List Svc) :
    (stopServicesEvents l).count StopEvent.grpcStop = 0 := by
  rw [List.count_eq_zero]
  intro hmem
  obtain ⟨name, hname⟩ := stopServicesEvents_shape l _ hmem
  exact StopEvent.noConfusion hname

theorem count_stopServicesEvents_runCleanup (l : List Svc) (j : Nat) :
    (stopServicesEvents l).count (StopEvent.runCleanup j) = 0 := by
  rw [List.count_eq_zero]
  intro hmem
  obtain ⟨name, hname⟩ := stopServicesEvents_shape l _ hmem
  exact StopEvent.noConfusion hname

theorem count_cleanupEvents_grpcStop (n i : Nat) :
    (cleanupEvents i n).count StopEvent.grpcStop = 0 := by
  rw [List.count_eq_zero]
  intro hmem
  obtain ⟨j, hj⟩ := cleanupEvents_shape n i _ hmem
  exact StopEvent.noConfusion hj

/-- C7 (amended): one Server.Stop call stops every configured Service in
list order, then stops the gRPC server (closing the listener), then runs
each registered cleanup action exactly once, in registration order — the
trace splits as service stops, then the gRPC stop, then only cleanups, the
gRPC stop occurs exactly once, and every registered cleanup index occurs
exactly once.  The Server state is returned unchanged: the cleanup list is
not cleared, which is why a repeated Stop runs the cleanups again. -/
theorem stop_order_single_run (s : ServerSt) :
    ((serverStop s).1).count StopEvent.grpcStop = 1
    ∧ (∀ i, i < s.x.length →
        ((serverStop s).1).count (StopEvent.runCleanup i) = 1)
    ∧ (∀ i, s.x.length ≤ i →
        ((serverStop s).1).count (StopEvent.runCleanup i) = 0)
    ∧ (∃ A B, (serverStop s).1 = A ++ StopEvent.grpcStop :: B
        ∧ A = stopServicesEvents s.services
        ∧ B = cleanupEvents 0 s.x.length
        ∧ (∀ e ∈ A, ∃ name, e = StopEvent.svcStop name)
        ∧ (∀ e ∈ B, ∃ j, e = StopEvent.runCleanup j))
    ∧ (serverStop s).2 = s := by
  refine ⟨?_, ?_, ?_, ?_, rfl⟩
  · simp [serverStop, List.count_append, count_stopServicesEvents_grpcStop,
      count_cleanupEvents_grpcStop]
  · intro i hi
    have hc := count_cleanupEvents s.x.length 0 i
    rw [if_pos (by omega)] at hc
    have hg : ([StopEvent.grpcStop] : List StopEvent).count (StopEvent.runCleanup i) = 0 := rfl
    simp [serverStop, List.count_append, count_stopServicesEvents_runCleanup, hc, hg]
  · intro i hi
    have hc := count_cleanupEvents s.x.length 0 i
    rw [if_neg (by omega)] at hc
    have hg : ([StopEvent.grpcStop] : List StopEvent).count (StopEvent.runCleanup i) = 0 := rfl
    simp [serverStop, List.count_append, count_stopServicesEvents_runCleanup, hc, hg]
  · refine ⟨stopServicesEvents s.services, cleanupEvents 0 s.x.length,
      ?_, rfl, rfl, stopServicesEvents_shape s.services,
      cleanupEvents_shape s.x.length 0⟩
    simp [serverStop]

theorem stop_order_single_run_witness :
    ((serverStop server1).1).count (StopEvent.runCleanup 0) = 1
    ∧ (serverStop server1).2 = server1 :=
  ⟨(stop_order_single_run server1).2.1 0 (by decide),
   (stop_order_single_run server1).2.2.2.2⟩

/-- C7 counterexample: on a Server with one registered cleanup action,
calling Stop twice in a row executes that cleanup action twice — the
combined trace of the two calls holds two executions of cleanup index 0 —
so a cleanup action can run more than once across repeated Stop calls,
contrary to the claim's "never executed more than once". -/
theorem stop_twice_reruns_cleanup :
    ((serverStop server1).1
      ++ (serverStop (serverStop server1).2).1).count (StopEvent.runCleanup 0)
      = 2 := by
  decide

/-- C3: for one Service, any interleaving of n concurrent first calls (each
caller's `Once.Do` being one atomic step, as guaranteed by the mutex inside
`sync.Once`) invokes the provider's GetSupportedVersions query exactly
once; when that single fetch succeeds with `vs`, the cache ends up holding
`vs` and every caller observes that same completed result. -/
theorem version_fetch_once (fetch : Nat → Except String (List (Option Version)))
    (n : Nat) (hn : 1 ≤ n) (vs : List (Option Version))
    (hf : fetch 1 = .ok vs) :
    (runCallers fetch n onceInit).1.calls = 1
    ∧ (runCallers fetch n onceInit).1.done = true
    ∧ (runCallers fetch n onceInit).1.cached = vs
    ∧ ∀ r ∈ (runCallers fetch n onceInit).2, r = .ok vs := by
  obtain ⟨m, rfl⟩ : ∃ m, n = m + 1 := ⟨n - 1, (Nat.succ_pred_eq_of_pos hn).symm⟩
  have hstep : initSupportedVersionsOnce fetch onceInit
      = ({ done := true, calls := 1, cached := vs }, .ok vs) := by
    simp [initSupportedVersionsOnce, onceInit, hf]
  have hrest := runCallers_done fetch m
    { done := true, calls := 1, cached := vs } rfl
  refine ⟨?_, ?_, ?_, ?_⟩ <;>
    simp [runCallers, hstep, hrest]

theorem version_fetch_once_witness :
    (runCallers (fun _ => .ok [some (Version.mk 0 1 0)]) 3 onceInit).1.calls = 1
    ∧ (runCallers (fun _ => .ok [some (Version.mk 0 1 0)]) 3 onceInit).1.cached
        = [some (Version.mk 0 1 0)] :=
  ⟨(version_fetch_once (fun _ => .ok [some (Version.mk 0 1 0)]) 3 (by decide)
      [some (Version.mk 0 1 0)] rfl).1,
   (version_fetch_once (fun _ => .ok [some (Version.mk 0 1 0)]) 3 (by decide)
      [some (Version.mk 0 1 0)] rfl).2.2.1⟩

/-- C4: on a Server with a non-empty Services list, a call whose metadata
carries the routing tag "csi.service" matching some configured Service's
name case-insensitively is dispatched to a Service with that name; a call
with no usable tag, or whose tag matches no configured name, is dispatched
to the first configured Service. -/
theorem svcFromCtx_routing (services : List Svc) (md : Option MD)
    (hne : services ≠ []) :
    ((∃ v, ctxTag md = some v ∧ ∃ svc ∈ services, eqFold v svc.serviceName = true) →
      ∃ svc, svcFromCtx services md = some svc ∧ svc ∈ services
        ∧ ∃ v, ctxTag md = some v ∧ eqFold v svc.serviceName = true)
    ∧ ((ctxTag md = none
        ∨ ∃ v, ctxTag md = some v ∧ ∀ svc ∈ services, eqFold v svc.serviceName = false) →
      svcFromCtx services md = services.head?
        ∧ svcFromCtx services md ≠ none) := by
  constructor
  · rintro ⟨v, hv, svc0, hmem, hfold⟩
    cases hfind : services.find? (fun svc => eqFold v svc.serviceName) with
    | none =>
      exact absurd hfold (by simpa using List.find?_eq_none.mp hfind svc0 hmem)
    | some svc =>
      refine ⟨svc, ?_, List.mem_of_find?_eq_some hfind, v, hv, ?_⟩
      · simp [svcFromCtx, hv, hfind]
      · simpa using List.find?_some hfind
  · have hhead : services.head? ≠ none := by
      cases services with
      | nil => exact absurd rfl hne
      | cons a l => simp
    rintro (hnone | ⟨v, hv, hall⟩)
    · constructor
      · simp [svcFromCtx, hnone]
      · simpa [svcFromCtx, hnone] using hhead
    · have hfind : services.find? (fun svc => eqFold v svc.serviceName) = none :=
        List.find?_eq_none.mpr (fun a ha => by simp [hall a ha])
      constructor
      · simp [svcFromCtx, hv, hfind]
      · simpa [svcFromCtx, hv, hfind] using hhead

theorem svcFromCtx_routing_witness :
    svcFromCtx
        [{ serviceType := "mock", serviceName := "A",
           versions := [], initErr := none, dialOk := true },
         { serviceType := "mock", serviceName := "B",
           versions := [], initErr := none, dialOk := true }]
        (some [("csi.service", ["zzz"])])
      = some { serviceType := "mock", serviceName := "A",
               versions := [], initErr := none, dialOk := true } :=
  ((svcFromCtx_routing
      [{ serviceType := "mock", serviceName := "A",
         versions := [], initErr := none, dialOk := true },
       { serviceType := "mock", serviceName := "B",
         versions := [], initErr := none, dialOk := true }]
      (some [("csi.service", ["zzz"])])
      (by decide)).2
    (Or.inr ⟨"zzz", rfl, by decide⟩)).1.trans rfl

theorem listVolumes_nil_version_witness :
    Svc.ListVolumes
        { serviceType := "mock", serviceName := "a",
          versions := [some (Version.mk 0 1 0)], initErr := none, dialOk := true }
        { version := none }
      = .reply (.opError 2 "request version is nil") :=
  (listVolumes_nil_version _ _ rfl rfl rfl).1

theorem matchScheme_some {s t sch a : List Char}
    (h : matchScheme s t = some (sch, a)) :
    lowerL sch = t ∧ s = sch ++ "://".data ++ a ∧ a ≠ [] ∧ '\n' ∉ a := by
  unfold matchScheme at h
  split at h
  case isFalse => exact absurd h (by simp)
  case isTrue hc =>
    simp only at h
    split at h
    case isTrue => exact absurd h (by simp)
    case isFalse hcond =>
      have hp := Option.some.inj h
      obtain ⟨rfl, rfl⟩ : sch = s.take t.length ∧ a = s.drop (t.length + 3) :=
        ⟨(congrArg Prod.fst hp).symm, (congrArg Prod.snd hp).symm⟩
      obtain ⟨ha, hnl⟩ := not_or.mp hcond
      have hd : s = s.take t.length
          ++ ((s.drop t.length).take 3 ++ (s.drop t.length).drop 3) := by
        rw [List.take_append_drop, List.take_append_drop]
      rw [hc.2, List.drop_drop] at hd
      refine ⟨hc.1, ?_, ha, hnl⟩
      rw [List.append_assoc]
      exact hd

theorem matchScheme_of_decomp (t sch a : List Char)
    (hlow : lowerL sch = t) (ha : a ≠ []) (hnl : '\n' ∉ a) :
    matchScheme (sch ++ "://".data ++ a) t = some (sch, a) := by
  have hlen : sch.length = t.length := by
    rw [← hlow]; simp [lowerL]
  have h1 : (sch ++ "://".data ++ a).take t.length = sch := by
    rw [← hlen, List.append_assoc, List.take_left]
  have h2 : (sch ++ "://".data ++ a).drop t.length = "://".data ++ a := by
    rw [← hlen, List.append_assoc, List.drop_left]
  have h3 : (sch ++ "://".data ++ a).drop (t.length + 3) = a := by
    rw [← List.drop_drop, h2]
    simp
  have hc2 : ((sch ++ "://".data ++ a).drop t.length).take 3 = "://".data := by
    rw [h2]
    simp
  unfold matchScheme
  rw [if_pos ⟨by rw [h1, hlow], hc2⟩]
  simp only [h3]
  rw [if_neg (by simp [ha, hnl]), h1]

/-- C8 (amended): parseProtoAddr accepts an endpoint exactly when it has
the form "scheme://address" with a recognised network-protocol or
local-socket scheme token matched case-insensitively and a non-empty
address holding no newline (the regexp's any-character class excludes
newlines); every other input yields an error, on which main exits with
status 1 (startup-fatal). -/
theorem parseProtoAddr_forms :
    (∀ s : List Char, (∃ pa, parseProtoAddr s = .ok pa) ↔ goodProtoAddr s)
    ∧ (∀ env : String, env ≠ "" → ¬ goodProtoAddr env.data →
        gocsiMain env = .exit1 ("error: invalid endpoint: " ++ env)) := by
  have hiff : ∀ s : List Char, (∃ pa, parseProtoAddr s = .ok pa) ↔ goodProtoAddr s := by
    intro s
    constructor
    · rintro ⟨⟨sch, a⟩, hpa⟩
      unfold parseProtoAddr at hpa
      cases hfind : protoTokens.findSome? (matchScheme s) with
      | none => rw [hfind] at hpa; exact absurd hpa (by simp)
      | some pa' =>
        rw [hfind] at hpa
        obtain ⟨t, htmem, hmt⟩ := List.exists_of_findSome?_eq_some hfind
        have hpa' : pa' = (sch, a) := by simpa using hpa
        rw [hpa'] at hmt
        obtain ⟨hlow, hdec, ha, hnl⟩ := matchScheme_some hmt
        exact ⟨t, htmem, sch, a, hdec, hlow, ha, hnl⟩
    · rintro ⟨t, htmem, sch, a, rfl, hlow, ha, hnl⟩
      have hm := matchScheme_of_decomp t sch a hlow ha hnl
      cases hfind : protoTokens.findSome? (matchScheme (sch ++ "://".data ++ a)) with
      | some pa => exact ⟨pa, by unfold parseProtoAddr; rw [hfind]⟩
      | none =>
        rw [List.findSome?_eq_none_iff.mp hfind t htmem] at hm
        exact Option.noConfusion hm
  refine ⟨hiff, ?_⟩
  intro env hne hbad
  cases hp : parseProtoAddr env.data with
  | ok pa => exact absurd ((hiff env.data).mp ⟨pa, hp⟩) hbad
  | error e =>
    have henv : (env == "") = false := beq_eq_false_iff_ne.mpr hne
    simp [gocsiMain, henv, hp]

theorem parseProtoAddr_forms_witness :
    goodProtoAddr "tcp://127.0.0.1:8080".data
    ∧ gocsiMain "bogus" = .exit1 ("error: invalid endpoint: " ++ "bogus") := by
  constructor
  · exact (parseProtoAddr_forms.1 "tcp://127.0.0.1:8080".data).mp
      ⟨("tcp".data, "127.0.0.1:8080".data), by decide⟩
  · refine parseProtoAddr_forms.2 "bogus" (by decide) ?_
    intro hg
    obtain ⟨pa, hpa⟩ := (parseProtoAddr_forms.1 "bogus".data).mpr hg
    have hcomp : parseProtoAddr "bogus".data
        = .error ("invalid address: " ++ "bogus") := by decide
    rw [hcomp] at hpa
    exact Except.noConfusion hpa

theorem volNameMatches_eq (name : String) :
    volNameMatches name = volFieldMatches "name" name := by
  funext v
  rfl

theorem findVolAux_eq_none (field val : String) :
    ∀ (l : List VolumeInfo) (x : Nat),
      findVolAux field val x l = none ↔ l.any (volFieldMatches field val) = false := by
  intro l
  induction l with
  | nil => intro x; simp [findVolAux]
  | cons v rest ih =>
    intro x
    cases hid : v.id with
    | none => simp [findVolAux, volFieldMatches, hid, ih (x + 1)]
    | some id =>
      by_cases hvals : id.values = []
      · simp [findVolAux, volFieldMatches, hid, hvals, mapGet, ih (x + 1)]
      · cases hmg : mapGet id.values field with
        | none => simp [findVolAux, volFieldMatches, hid, hvals, hmg, ih (x + 1)]
        | some fv =>
          by_cases hf : eqFold fv val = true
          · simp [findVolAux, volFieldMatches, hid, hvals, hmg, hf]
          · simp [findVolAux, volFieldMatches, hid, hvals, hmg, hf, ih (x + 1)]

theorem findVolAux_some (field val : String) :
    ∀ (l : List VolumeInfo) (x i : Nat) (v : VolumeInfo),
      findVolAux field val x l = some (i, v) →
      v ∈ l ∧ volFieldMatches field val v = true := by
  intro l
  induction l with
  | nil => intro x i v h; simp [findVolAux] at h
  | cons w rest ih =>
    intro x i v h
    rw [findVolAux] at h
    split at h
    next hid =>
      obtain ⟨hmem, hm⟩ := ih (x + 1) i v h
      exact ⟨List.mem_cons_of_mem w hmem, hm⟩
    next id hid =>
      split at h
      next hvals =>
        obtain ⟨hmem, hm⟩ := ih (x + 1) i v h
        exact ⟨List.mem_cons_of_mem w hmem, hm⟩
      next hvals =>
        split at h
        next hmg =>
          obtain ⟨hmem, hm⟩ := ih (x + 1) i v h
          exact ⟨List.mem_cons_of_mem w hmem, hm⟩
        next fv hmg =>
          split at h
          next hf =>
            have hv : v = w := (congrArg Prod.snd (Option.some.inj h)).symm
            rw [hv]
            exact ⟨List.mem_cons_self w rest,
              by simp [volFieldMatches, hid, hmg, hf]⟩
          next hf =>
            obtain ⟨hmem, hm⟩ := ih (x + 1) i v h
            exact ⟨List.mem_cons_of_mem w hmem, hm⟩

theorem findVolAux_append (field val : String) (v' : VolumeInfo)
    (hv' : volFieldMatches field val v' = true) :
    ∀ (l : List VolumeInfo) (x : Nat),
      l.any (volFieldMatches field val) = false →
      findVolAux field val x (l ++ [v']) = some (x + l.length, v') := by
  intro l
  induction l with
  | nil =>
    intro x _
    cases hid : v'.id with
    | none => simp [volFieldMatches, hid] at hv'
    | some id =>
      cases hmg : mapGet id.values field with
      | none => simp [volFieldMatches, hid, hmg] at hv'
      | some fv =>
        have hf : eqFold fv val = true := by
          simpa [volFieldMatches, hid, hmg] using hv'
        have hvals : id.values ≠ [] := by
          intro hv0
          rw [hv0] at hmg
          simp [mapGet] at hmg
        simp [findVolAux, hid, hvals, hmg, hf]
  | cons w rest ih =>
    intro x hany
    rw [List.any_cons] at hany
    obtain ⟨hw, hrest⟩ := Bool.or_eq_false_iff.mp hany
    have hstep : findVolAux field val (x + 1) (rest ++ [v'])
        = some (x + 1 + rest.length, v') := ih (x + 1) hrest
    have hlen : x + 1 + rest.length = x + (w :: rest).length := by
      simp [List.length_cons]
      omega
    cases hid : w.id with
    | none =>
      simp only [List.cons_append, findVolAux, hid, List.append_eq]
      rw [hstep, hlen]
    | some id =>
      by_cases hvals : id.values = []
      · simp only [List.cons_append, findVolAux, hid, if_pos hvals, List.append_eq]
        rw [hstep, hlen]
      · cases hmg : mapGet id.values field with
        | none =>
          simp only [List.cons_append, findVolAux, hid, if_neg hvals, hmg,
            List.append_eq]
          rw [hstep, hlen]
        | some fv =>
          have hf : eqFold fv val = false := by
            simpa [volFieldMatches, hid, hmg] using hw
          simp only [List.cons_append, findVolAux, hid, if_neg hvals, hmg, hf,
            List.append_eq]
          simp only [Bool.false_eq_true, if_false]
          rw [hstep, hlen]

theorem volNameMatches_newVolume (id : Nat) (name : String) (cap : Nat) :
    volNameMatches name (newVolume id name cap) = true := by
  simp [volNameMatches, volFieldMatches, newVolume, mapGet, List.find?, eqFold,
    show (("id" : String) == "name") = false from by decide,
    show (("name" : String) == "name") = true from by decide]

/-- C10: mock CreateVolume with a non-empty name is idempotent: when a
volume whose name field case-insensitively equals the requested name is
already in the catalog, the catalog is unchanged and such an existing
volume's info is returned; otherwise exactly one new volume is appended
and returned; and calling it twice with the same request yields the same
volume while growing the catalog by at most one. -/
theorem mock_create_idempotent (st : MockSt) (req : CreateVolumeRequest)
    (hname : req.name ≠ "") :
    (st.vols.any (volNameMatches req.name) = true →
      (mockCreateVolume st req).1 = st
      ∧ ∃ v, v ∈ st.vols ∧ volNameMatches req.name v = true
          ∧ (mockCreateVolume st req).2 = .result v)
    ∧ (st.vols.any (volNameMatches req.name) = false →
      ∃ v, (mockCreateVolume st req).1.vols = st.vols ++ [v]
        ∧ (mockCreateVolume st req).2 = .result v
        ∧ volNameMatches req.name v = true)
    ∧ ((mockCreateVolume (mockCreateVolume st req).1 req).2
        = (mockCreateVolume st req).2
      ∧ (mockCreateVolume (mockCreateVolume st req).1 req).1.vols.length
          ≤ st.vols.length + 1) := by
  have parta : st.vols.any (volNameMatches req.name) = true →
      (mockCreateVolume st req).1 = st
      ∧ ∃ v, v ∈ st.vols ∧ volNameMatches req.name v = true
          ∧ (mockCreateVolume st req).2 = .result v := by
    intro hany
    cases hfv : findVolByName st.vols req.name with
    | none =>
      have := (findVolAux_eq_none "name" req.name st.vols 0).mp
        (by simpa [findVolByName, findVol] using hfv)
      rw [volNameMatches_eq] at hany
      rw [this] at hany
      exact Bool.noConfusion hany
    | some iv =>
      obtain ⟨i, v⟩ := iv
      obtain ⟨hmem, hm⟩ := findVolAux_some "name" req.name st.vols 0 i v
        (by simpa [findVolByName, findVol] using hfv)
      refine ⟨by simp [mockCreateVolume, hname, hfv], v, hmem, ?_, ?_⟩
      · rw [volNameMatches_eq]
        exact hm
      · simp [mockCreateVolume, hname, hfv]
  have partb : st.vols.any (volNameMatches req.name) = false →
      ∃ v, (mockCreateVolume st req).1.vols = st.vols ++ [v]
        ∧ (mockCreateVolume st req).2 = .result v
        ∧ volNameMatches req.name v = true := by
    intro hany
    have hfv : findVolByName st.vols req.name = none := by
      simp only [findVolByName, findVol]
      refine (findVolAux_eq_none "name" req.name st.vols 0).mpr ?_
      rw [← volNameMatches_eq]
      exact hany
    exact ⟨newVolume (st.nextVolID + 1) req.name (mockCapacity req),
      by simp [mockCreateVolume, hname, hfv],
      by simp [mockCreateVolume, hname, hfv],
      volNameMatches_newVolume _ _ _⟩
  refine ⟨parta, partb, ?_⟩
  cases hany : st.vols.any (volNameMatches req.name) with
  | true =>
    obtain ⟨hst, _, _, _, _⟩ := parta hany
    constructor
    · rw [hst]
    · rw [hst, hst]
      exact Nat.le_succ _
  | false =>
    obtain ⟨v, hvols, hres, hmatch⟩ := partb hany
    have hfind2 : findVolByName (mockCreateVolume st req).1.vols req.name
        = some (st.vols.length, v) := by
      rw [hvols]
      simpa [findVolByName, findVol] using
        findVolAux_append "name" req.name v
          (by rw [← volNameMatches_eq]; exact hmatch) st.vols 0
          (by rw [← volNameMatches_eq]; exact hany)
    have hsecond : ∀ s1 : MockSt,
        findVolByName s1.vols req.name = some (st.vols.length, v) →
        mockCreateVolume s1 req = (s1, .result v) := by
      intro s1 hf1
      simp [mockCreateVolume, hname, hf1]
    constructor
    · rw [hsecond _ hfind2, hres]
    · rw [hsecond _ hfind2]
      simp [hvols]

theorem mock_create_idempotent_witness :
    (mockCreateVolume (mockCreateVolume mock0 req1).1 req1).2
      = (mockCreateVolume mock0 req1).2
    ∧ (mockCreateVolume (mockCreateVolume mock0 req1).1 req1).1.vols.length
        ≤ mock0.vols.length + 1 :=
  ⟨(mock_create_idempotent mock0 req1 (by decide)).2.2.1,
   (mock_create_idempotent mock0 req1 (by decide)).2.2.2⟩

/-- C8 counterexample: the input "tcp://a\nb" has the form the claim
accepts — the scheme token "tcp" and the non-empty address "a\nb" — yet
parseProtoAddr rejects it, because the regexp's any-character class never
matches the newline inside the address. -/
theorem parseProtoAddr_newline_counterexample :
    claimedProtoAddr "tcp://a\nb".data
    ∧ parseProtoAddr "tcp://a\nb".data
        = .error ("invalid address: " ++ "tcp://a\nb") := by
  constructor
  · exact ⟨"tcp".data, by decide, "tcp".data, "a\nb".data,
      by decide, by decide, by decide⟩
  · decide

end Gocsi
